import Mathlib

/-!
Verification of the flashcard-generator program
(generate_flashcards/generate_flashcards.py).

The Python source is shallowly embedded: JSON values decoded by the
program are modelled by an inductive `Json` type, Python built-in
operations (membership test, subscription, len, str conversion) by
explicit functions returning `Except PyErr`, and the filesystem walk of
`process_files` by an explicit list of visited directories together with
an association-list filesystem.
-/

set_option autoImplicit false

namespace FlashcardGen

/-- A decoded JSON / Python value as manipulated by the program. -/
inductive Json where
  | null
  | bool (b : Bool)
  | int (n : Int)
  | str (s : String)
  | arr (elems : List Json)
  | obj (fields : List (String × Json))
deriving BEq

/-- Python exceptions that the embedded operations can raise. -/
inductive PyErr where
  | jsonDecodeError
  | keyError (key : String)
  | typeError (msg : String)
  | valueError (msg : String)
deriving BEq, DecidableEq

/-- The error messages raised by `validate_flashcards` (each constructor
stands for one literal ValueError message of the source). -/
inductive ValidationError where
  /-- message: "Flashcards must be a list." -/
  | mustBeList
  /-- message: "Each flashcard must be a dict." -/
  | mustBeDict
  /-- message: each flashcard must have a front and back key. -/
  | missingFrontBackKey
  /-- message: the front and back keys must be strings. -/
  | frontBackMustBeStrings
deriving BEq, DecidableEq

/-- A single-quote character, used by the Python repr of strings. -/
def pyQuote : String := String.singleton (Char.ofNat 39)

mutual

/-- Python repr() of a value (quoting approximated for plain strings). -/
def pyRepr : Json → String
  | .null => "None"
  | .bool true => "True"
  | .bool false => "False"
  | .int n => toString n
  | .str s => pyQuote ++ s ++ pyQuote
  | .arr xs => "[" ++ pyReprArr xs ++ "]"
  | .obj kvs => "\x7b" ++ pyReprObj kvs ++ "\x7d"

/-- repr of the elements of a list, comma separated. -/
def pyReprArr : List Json → String
  | [] => ""
  | [x] => pyRepr x
  | x :: y :: xs => pyRepr x ++ ", " ++ pyReprArr (y :: xs)

/-- repr of the fields of a dict, comma separated. -/
def pyReprObj : List (String × Json) → String
  | [] => ""
  | [(k, v)] => pyQuote ++ k ++ pyQuote ++ ": " ++ pyRepr v
  | (k, v) :: kv :: kvs =>
      pyQuote ++ k ++ pyQuote ++ ": " ++ pyRepr v ++ ", " ++ pyReprObj (kv :: kvs)

end

/-- Python str() of a value, as performed by an f-string interpolation. -/
def pyStr : Json → String
  | .str s => s
  | j => pyRepr j

/-- First value bound to `key` in a dict (Python dict keys are unique). -/
def lookupField : List (String × Json) → String → Option Json
  | [], _ => none
  | (k, v) :: kvs, key => if k == key then some v else lookupField kvs key

/-- Python: `key in d` for a dict `d`. -/
def hasField (kvs : List (String × Json)) (key : String) : Bool :=
  (lookupField kvs key).isSome

/-- Character-list substring test (Python: `needle in haystack` on strings). -/
def charsInfixOf (needle : List Char) : List Char → Bool
  | [] => needle.isEmpty
  | c :: rest => needle.isPrefixOf (c :: rest) || charsInfixOf needle rest

/-- The Python membership operator `key in x` for a string key. -/
def pyContains (key : String) : Json → Except PyErr Bool
  | .obj kvs => .ok (hasField kvs key)
  | .arr xs => .ok (xs.any fun x => x == Json.str key)
  | .str s => .ok (charsInfixOf key.data s.data)
  | _ => .error (.typeError "argument is not iterable")

/-- The Python subscription `x[key]` for a string key. -/
def pyGetItem (j : Json) (key : String) : Except PyErr Json :=
  match j with
  | .obj kvs =>
      match lookupField kvs key with
      | some v => .ok v
      | none => .error (.keyError key)
  | .str _ => .error (.typeError "string indices must be integers")
  | .arr _ => .error (.typeError "list indices must be integers")
  | _ => .error (.typeError "object is not subscriptable")

/-- Python len(). -/
def pyLen : Json → Except PyErr Nat
  | .arr xs => .ok xs.length
  | .str s => .ok s.length
  | .obj kvs => .ok kvs.length
  | _ => .error (.typeError "object has no len")

/-- Is the value a JSON/Python string? (isinstance(x, str)). -/
def isStrJson : Json → Bool
  | .str _ => true
  | _ => false

/-- Loop body of `validate_flashcards`: checks each card in order. -/
def validateCards : List Json → Except ValidationError Unit
  | [] => .ok ()
  | card :: rest =>
      match card with
      | .obj kvs =>
          match lookupField kvs "front", lookupField kvs "back" with
          | some f, some b =>
              if isStrJson f && isStrJson b then validateCards rest
              else .error .frontBackMustBeStrings
          | _, _ => .error .missingFrontBackKey
      | _ => .error .mustBeDict

/-- `FlashcardGenerator.validate_flashcards`: raises unless the value is a
list of dicts, each with string values under the front and back keys. -/
def validate_flashcards (flashcards : Json) : Except ValidationError Unit :=
  match flashcards with
  | .arr cards => validateCards cards
  | _ => .error .mustBeList

/-- Body of the formatting loop of `format_flashcards` for one card:
if both keys are present the card is appended to the output, otherwise
the card is skipped (the source only logs it). -/
def formatCard (out : String) (card : Json) : Except PyErr String := do
  let hasF ← pyContains "front" card
  if hasF then
    let hasB ← pyContains "back" card
    if hasB then do
      let front ← pyGetItem card "front"
      let back ← pyGetItem card "back"
      .ok (out ++ pyStr front ++ "\n?\n" ++ pyStr back ++ "\n\n")
    else .ok out
  else .ok out

/-- `FlashcardGenerator.format_flashcards`: renders a list of cards into
one string; only the obsidian_spaced_repetition format type is accepted. -/
def format_flashcards (flashcards : List Json) (format_type : String)
    (include_tag : Bool) : Except PyErr String :=
  if format_type == "obsidian_spaced_repetition" then
    flashcards.foldlM formatCard (if include_tag then "#flashcards\n\n" else "")
  else
    .error (.valueError ("Invalid format type: " ++ format_type))

/-- `FlashcardGenerator.create_flashcard`, abstracted over the completion
reply: `none` models a reply body that is not valid JSON (json.loads
raises), `some body` the decoded JSON body.  The source extracts the
cards field, calls len() on it for the log line, and returns it. -/
def create_flashcard (reply : Option Json) : Except PyErr Json :=
  match reply with
  | none => .error .jsonDecodeError
  | some body => do
      let flashcards ← pyGetItem body "cards"
      let _n ← pyLen flashcards
      .ok flashcards

/-! ## Directory traversal (`process_files`)

`os.walk` is modelled by the list of visited directories (each with the
plain files it contains), in the order the walk yields them; the
filesystem contents are an association list from path to file text.  The
per-file pipeline of `process_file` (read, `create_flashcard`,
`format_flashcards`, write) is abstracted by the oracle `gen` mapping
the note content that was read to the text that is written. -/

/-- Python `s.startswith(p)`. -/
def strStartsWith (s p : String) : Bool := List.isPrefixOf p.data s.data

/-- Python `s.endswith(p)`. -/
def strEndsWith (s p : String) : Bool := List.isSuffixOf p.data s.data

/-- `os.path.join` for a non-empty left part and a relative right part. -/
def pathJoin (a b : String) : String := a ++ "/" ++ b

/-- `os.path.relpath p base` for the paths produced by walking `base`. -/
def relPath (p base : String) : String :=
  if p == base then "."
  else if strStartsWith p (base ++ "/") then String.mk (p.data.drop (base.data.length + 1))
  else p

/-- The path separator character. -/
def sep : Char := Char.ofNat 47

/-- `os.path.dirname`: everything before the last separator, the empty
string when there is none, and the root for a file directly under it. -/
def dirName (p : String) : String :=
  match (p.data.reverse.dropWhile fun c => !(c == sep)) with
  | [] => ""
  | _ :: rest => if rest.isEmpty then String.mk [sep] else String.mk rest.reverse

/-- The property the spec calls being a sub-path: `p` is `base` itself or
lies strictly below `base` (its path extends `base` past a separator). -/
def isSubPathOf (p base : String) : Bool :=
  p == base || strStartsWith p (base ++ "/")

/-- Filesystem contents: association list from file path to file text. -/
abbrev Fs := List (String × String)

/-- Contents of a file, `none` when the file does not exist. -/
def fsLookup : Fs → String → Option String
  | [], _ => none
  | (p, c) :: rest, q => if p == q then some c else fsLookup rest q

/-- Write (create or overwrite) one file. -/
def fsWrite : Fs → String → String → Fs
  | [], p, c => [(p, c)]
  | (q, d) :: rest, p, c =>
      if q == p then (p, c) :: rest else (q, d) :: fsWrite rest p c

/-- Observable steps taken by `process_files`. -/
inductive Event where
  /-- the walked directory was skipped as part of the output directory -/
  | skipDir (root : String)
  /-- `os.makedirs(..., exist_ok=True)` on the parent of the output path -/
  | mkdir (dir : String)
  /-- output file already exists and overwriting is off: no API call -/
  | skipExisting (path : String)
  /-- `process_file` ran: the generator was invoked and the output written -/
  | process (input output : String)
deriving BEq, DecidableEq

/-- The run configuration (`self` fields plus the per-file oracle). -/
structure Config where
  input_dir : String
  output_dir : String
  overwrite_files : Bool
  gen : String → String

/-- A directory yielded by `os.walk`: its path and its plain files. -/
structure WalkEntry where
  root : String
  files : List String

/-- Output path of a note: `output_dir / relpath(input_path, input_dir)`. -/
def outputPathFor (cfg : Config) (root file : String) : String :=
  pathJoin cfg.output_dir (relPath (pathJoin root file) cfg.input_dir)

/-- The inner `for file in files` loop of `process_files`: for every
name ending in .md, make the output parent directory, then either skip
(output exists and overwriting is off) or run `process_file`, which
reads the note and writes `gen` of its content to the output path. -/
def processEntryFiles (cfg : Config) (root : String) :
    List String → Fs → List Event × Fs
  | [], fs => ([], fs)
  | file :: rest, fs =>
      if strEndsWith file ".md" then
        let input_file_path := pathJoin root file
        let output_file_path := outputPathFor cfg root file
        let mk := Event.mkdir (dirName output_file_path)
        if (fsLookup fs output_file_path).isSome && !cfg.overwrite_files then
          let r := processEntryFiles cfg root rest fs
          (mk :: Event.skipExisting output_file_path :: r.1, r.2)
        else
          let content := (fsLookup fs input_file_path).getD ""
          let fs1 := fsWrite fs output_file_path (cfg.gen content)
          let r := processEntryFiles cfg root rest fs1
          (mk :: Event.process input_file_path output_file_path :: r.1, r.2)
      else
        processEntryFiles cfg root rest fs

/-- One iteration of the `os.walk` loop: a directory whose path starts
with the output directory string is skipped whole (`continue`). -/
def stepEntry (cfg : Config) (fs : Fs) (entry : WalkEntry) :
    List Event × Fs :=
  if strStartsWith entry.root cfg.output_dir then
    ([Event.skipDir entry.root], fs)
  else
    processEntryFiles cfg entry.root entry.files fs

/-- `FlashcardGenerator.process_files` over a walk listing. -/
def process_files (cfg : Config) : List WalkEntry → Fs → List Event × Fs
  | [], fs => ([], fs)
  | e :: es, fs =>
      let r1 := stepEntry cfg fs e
      let r2 := process_files cfg es r1.2
      (r1.1 ++ r2.1, r2.2)

/-- Does the event record an invocation of the generator pipeline? -/
def isProcessEvent : Event → Bool
  | .process _ _ => true
  | _ => false

/-- Concatenation of a list of strings (no separator). -/
def strConcat : List String → String
  | [] => ""
  | s :: rest => s ++ strConcat rest

/-- The text the formatting loop appends for one dict card: the front
value, a line holding only a question mark, the back value and a blank
line when both keys are present, nothing otherwise. -/
def objRender (kvs : List (String × Json)) : String :=
  match lookupField kvs "front", lookupField kvs "back" with
  | some f, some b => pyStr f ++ "\n?\n" ++ pyStr b ++ "\n\n"
  | _, _ => ""

/-- Shape demanded of one card by the spec of ResponseValidator: a keyed
record with string values under the front and back keys. -/
def cardShapeSpec : Json → Bool
  | .obj kvs =>
      match lookupField kvs "front", lookupField kvs "back" with
      | some (.str _), some (.str _) => true
      | _, _ => false
  | _ => false

/-- Shape demanded of the whole payload by the spec of ResponseValidator:
a list of records of shape `cardShapeSpec`. -/
def cardsShapeSpec : Json → Bool
  | .arr cards => cards.all cardShapeSpec
  | _ => false

/-- A concrete run configuration used by the closed instances below:
input root /in, output root /in/flashcards, no overwriting. -/
def cfgEx : Config := ⟨"/in", "/in/flashcards", false, fun c => c⟩

/-- A concrete filesystem used by the closed instances below. -/
def fsEx : Fs :=
  [("/in/a.md", "A"), ("/in/sub/b.md", "B"), ("/in/flashcards/old.md", "OLD")]

/-! ## Helper lemmas -/

lemma strConcat_nil : strConcat [] = "" := rfl

lemma strConcat_cons (s : String) (rest : List String) :
    strConcat (s :: rest) = s ++ strConcat rest := rfl

/-- The loop body appends exactly `objRender kvs` for a dict card and
never fails on one. -/
lemma formatCard_obj (acc : String) (kvs : List (String × Json)) :
    formatCard acc (.obj kvs) = .ok (acc ++ objRender kvs) := by
  simp only [formatCard, pyContains, hasField, objRender, pyGetItem, Bind.bind, Except.bind]
  cases h1 : lookupField kvs "front" <;> cases h2 : lookupField kvs "back" <;>
    simp [h1, h2, String.append_assoc]

/-- Folding the loop body over dict cards succeeds and appends the
renders of the cards in input order. -/
lemma foldlM_formatCard_objs (cards : List (List (String × Json))) :
    ∀ acc : String,
      List.foldlM formatCard acc (cards.map Json.obj)
        = .ok (acc ++ strConcat (cards.map objRender)) := by
  induction cards with
  | nil => intro acc; simp [List.foldlM, strConcat, pure, Except.pure]
  | cons kvs rest ih =>
      intro acc
      simp only [List.map_cons, List.foldlM, formatCard_obj, strConcat_cons, Bind.bind,
        Except.bind, ih, String.append_assoc]

/-- `format_flashcards` on dict cards in the recognized format type. -/
lemma format_flashcards_objs (cards : List (List (String × Json)))
    (include_tag : Bool) :
    format_flashcards (cards.map Json.obj) "obsidian_spaced_repetition" include_tag
      = .ok ((if include_tag then "#flashcards\n\n" else "")
          ++ strConcat (cards.map objRender)) := by
  simp [format_flashcards, foldlM_formatCard_objs]

/-- The concatenation of renders is empty when every card misses a key. -/
lemma strConcat_objRender_empty (cards : List (List (String × Json)))
    (h : ∀ kvs ∈ cards,
      lookupField kvs "front" = none ∨ lookupField kvs "back" = none) :
    strConcat (cards.map objRender) = "" := by
  induction cards with
  | nil => rfl
  | cons kvs rest ih =>
      have hk := h kvs (by simp)
      have hrest : strConcat (rest.map objRender) = "" :=
        ih fun k hkr => h k (by simp [hkr])
      have hr : objRender kvs = "" := by
        unfold objRender
        rcases hk with hk | hk
        · rw [hk]
        · rw [hk]; cases lookupField kvs "front" <;> rfl
      simp [strConcat_cons, hr, hrest]

/-- `validateCards` succeeds exactly on lists of well-shaped cards. -/
lemma validateCards_ok_iff (cards : List Json) :
    validateCards cards = .ok () ↔ cards.all cardShapeSpec = true := by
  induction cards with
  | nil => simp [validateCards]
  | cons card rest ih =>
      cases card with
      | obj kvs =>
          simp only [validateCards, List.all_cons, Bool.and_eq_true, cardShapeSpec]
          cases h1 : lookupField kvs "front" with
          | none => simp
          | some f =>
              cases h2 : lookupField kvs "back" with
              | none => simp
              | some b => cases f <;> cases b <;> simp [isStrJson, ih]
      | null => simp [validateCards, cardShapeSpec]
      | bool b => simp [validateCards, cardShapeSpec]
      | int n => simp [validateCards, cardShapeSpec]
      | str s => simp [validateCards, cardShapeSpec]
      | arr xs => simp [validateCards, cardShapeSpec]

lemma data_append (a b : String) : (a ++ b).data = a.data ++ b.data := by
  cases a; cases b; rfl

/-- Being a sub-path implies passing the startswith test of the skip rule. -/
lemma subPath_startsWith (p base : String) (h : isSubPathOf p base = true) :
    strStartsWith p base = true := by
  unfold isSubPathOf at h
  rcases Bool.or_eq_true_iff.mp h with h | h
  · have : p = base := by simpa using h
    subst this
    simp [strStartsWith, List.isPrefixOf_iff_prefix]
  · unfold strStartsWith at h ⊢
    rw [List.isPrefixOf_iff_prefix] at h ⊢
    exact (List.prefix_append base.data _).trans (by rwa [← data_append])

/-- The inner file loop never emits a directory-skip event. -/
lemma skipDir_not_in_pef (cfg : Config) (root r2 : String) :
    ∀ (files : List String) (fs : Fs),
      Event.skipDir r2 ∉ (processEntryFiles cfg root files fs).1 := by
  intro files
  induction files with
  | nil => intro fs; simp [processEntryFiles]
  | cons f rest ih =>
      intro fs
      by_cases hmd : strEndsWith f ".md" = true
      · simp only [processEntryFiles, hmd, if_true]
        by_cases hex : (fsLookup fs (outputPathFor cfg root f)).isSome
            && !cfg.overwrite_files
        · simp [hex, ih]
        · simp [hex, ih]
      · simp only [processEntryFiles, Bool.not_eq_true] at hmd ⊢
        simp [hmd, ih]

/-- Every .md file of a visited directory reaches per-file handling: its
output parent directory is made and it is either processed or skipped as
already existing. -/
lemma file_handled (cfg : Config) (root : String) :
    ∀ (files : List String) (fs : Fs) (file : String),
      file ∈ files → strEndsWith file ".md" = true →
      Event.mkdir (dirName (outputPathFor cfg root file))
          ∈ (processEntryFiles cfg root files fs).1
      ∧ (Event.skipExisting (outputPathFor cfg root file)
            ∈ (processEntryFiles cfg root files fs).1
         ∨ Event.process (pathJoin root file) (outputPathFor cfg root file)
            ∈ (processEntryFiles cfg root files fs).1) := by
  intro files
  induction files with
  | nil => intro fs file hm; cases hm
  | cons f rest ih =>
      intro fs file hm hmd
      rcases List.mem_cons.mp hm with rfl | hm
      · simp only [processEntryFiles, hmd, if_true]
        by_cases hex : (fsLookup fs (outputPathFor cfg root file)).isSome
            && !cfg.overwrite_files
        · simp [hex]
        · simp [hex]
      · by_cases hf : strEndsWith f ".md" = true
        · simp only [processEntryFiles, hf, if_true]
          by_cases hex : (fsLookup fs (outputPathFor cfg root f)).isSome
              && !cfg.overwrite_files
          · have := ih fs file hm hmd
            simp [hex]
            rcases this with ⟨h1, h2 | h2⟩ <;> simp [h1, h2]
          · have := ih (fsWrite fs (outputPathFor cfg root f)
              (cfg.gen ((fsLookup fs (pathJoin root f)).getD ""))) file hm hmd
            simp [hex]
            rcases this with ⟨h1, h2 | h2⟩ <;> simp [h1, h2]
        · simp only [processEntryFiles, Bool.not_eq_true] at hf ⊢
          simp only [hf, Bool.false_eq_true, if_false]
          exact ih fs file hm hmd

/-! ## Claims -/

/-- Claim C1, counterexample: the directory /in/flashcards2 is not a
sub-path of the output root /in/flashcards, yet the traversal skips it
whole (its only event is the directory skip, so its .md file is never
processed), because the source tests `root.startswith(output_dir)` on
raw path strings. -/
theorem c1_counterexample :
    isSubPathOf "/in/flashcards2" "/in/flashcards" = false
    ∧ (stepEntry cfgEx fsEx ⟨"/in/flashcards2", ["c.md"]⟩).1
        = [Event.skipDir "/in/flashcards2"] :=
  ⟨rfl, rfl⟩

/-- Claim C1, amended: a visited directory is skipped iff its path
string starts with the output root string.  Every sub-path of the output
root is therefore skipped (files under it are never revisited), but a
sibling whose path extends the output root string without a separator is
skipped too; every .md file of a directory whose path does not start
with the output root string reaches per-file handling. -/
theorem c1_amended (cfg : Config) (fs : Fs) (root : String)
    (files : List String) :
    (Event.skipDir root ∈ (stepEntry cfg fs ⟨root, files⟩).1
        ↔ strStartsWith root cfg.output_dir = true)
    ∧ (isSubPathOf root cfg.output_dir = true →
        stepEntry cfg fs ⟨root, files⟩ = ([Event.skipDir root], fs))
    ∧ (strStartsWith root cfg.output_dir = false →
        ∀ file ∈ files, strEndsWith file ".md" = true →
          Event.mkdir (dirName (outputPathFor cfg root file))
              ∈ (stepEntry cfg fs ⟨root, files⟩).1
          ∧ (Event.skipExisting (outputPathFor cfg root file)
                ∈ (stepEntry cfg fs ⟨root, files⟩).1
             ∨ Event.process (pathJoin root file) (outputPathFor cfg root file)
                ∈ (stepEntry cfg fs ⟨root, files⟩).1)) := by
  by_cases hp : strStartsWith root cfg.output_dir = true
  · refine ⟨by simp [stepEntry, hp], fun _ => by simp [stepEntry, hp],
      fun hfalse => ?_⟩
    rw [hp] at hfalse; cases hfalse
  · have hp2 : strStartsWith root cfg.output_dir = false := by
      simpa using hp
    refine ⟨?_, fun hsp =>
      absurd (subPath_startsWith _ _ hsp) (by simp [hp2]), ?_⟩
    · simp [stepEntry, hp2, skipDir_not_in_pef]
    · intro _ file hm hmd
      simpa [stepEntry, hp2] using file_handled cfg root files fs file hm hmd

/-- Witness for claim C1 (amended): a directory below the output root is
skipped whole, and the .md file of the unrelated directory /in/sub is
handled. -/
theorem c1_amended_witness :
    stepEntry cfgEx fsEx ⟨"/in/flashcards/deep", ["d.md"]⟩
        = ([Event.skipDir "/in/flashcards/deep"], fsEx)
    ∧ (Event.mkdir "/in/flashcards/sub"
          ∈ (stepEntry cfgEx fsEx ⟨"/in/sub", ["b.md"]⟩).1
       ∧ (Event.skipExisting "/in/flashcards/sub/b.md"
            ∈ (stepEntry cfgEx fsEx ⟨"/in/sub", ["b.md"]⟩).1
          ∨ Event.process "/in/sub/b.md" "/in/flashcards/sub/b.md"
            ∈ (stepEntry cfgEx fsEx ⟨"/in/sub", ["b.md"]⟩).1)) := by
  refine ⟨(c1_amended cfgEx fsEx "/in/flashcards/deep" ["d.md"]).2.1 rfl, ?_⟩
  have h := (c1_amended cfgEx fsEx "/in/sub" ["b.md"]).2.2 rfl "b.md" (by simp) rfl
  have e1 : dirName (outputPathFor cfgEx "/in/sub" "b.md")
      = "/in/flashcards/sub" := rfl
  have e2 : outputPathFor cfgEx "/in/sub" "b.md"
      = "/in/flashcards/sub/b.md" := rfl
  have e3 : pathJoin "/in/sub" "b.md" = "/in/sub/b.md" := rfl
  rw [e1, e2, e3] at h
  exact h

/-- Claim C2: a qualifying note whose output path exists while
overwriting is off is skipped, without invoking the generator and
without touching the filesystem; and on the spec example tree (a.md,
sub/b.md and a pre-existing flashcards/old.md, output root
/in/flashcards) a run without overwriting invokes the generator exactly
twice, for a.md and sub/b.md, and leaves old.md untouched. -/
theorem c2_skip_existing :
    (∀ (cfg : Config) (root file : String) (rest : List String) (fs : Fs),
      cfg.overwrite_files = false →
      strEndsWith file ".md" = true →
      (fsLookup fs (outputPathFor cfg root file)).isSome = true →
      processEntryFiles cfg root (file :: rest) fs
        = (Event.mkdir (dirName (outputPathFor cfg root file))
            :: Event.skipExisting (outputPathFor cfg root file)
            :: (processEntryFiles cfg root rest fs).1,
           (processEntryFiles cfg root rest fs).2))
    ∧ (∀ (gen : String → String) (cA cB cOld : String),
      (process_files ⟨"/in", "/in/flashcards", false, gen⟩
          [⟨"/in", ["a.md"]⟩, ⟨"/in/flashcards", ["old.md"]⟩,
           ⟨"/in/sub", ["b.md"]⟩]
          [("/in/a.md", cA), ("/in/sub/b.md", cB),
           ("/in/flashcards/old.md", cOld)]).1.filter isProcessEvent
        = [Event.process "/in/a.md" "/in/flashcards/a.md",
           Event.process "/in/sub/b.md" "/in/flashcards/sub/b.md"]
      ∧ fsLookup (process_files ⟨"/in", "/in/flashcards", false, gen⟩
          [⟨"/in", ["a.md"]⟩, ⟨"/in/flashcards", ["old.md"]⟩,
           ⟨"/in/sub", ["b.md"]⟩]
          [("/in/a.md", cA), ("/in/sub/b.md", cB),
           ("/in/flashcards/old.md", cOld)]).2 "/in/flashcards/old.md"
        = some cOld) := by
  constructor
  · intro cfg root file rest fs hov hmd hex
    simp [processEntryFiles, hmd, hex, hov]
  · intro gen cA cB cOld
    exact ⟨rfl, rfl⟩

/-- Witness for claim C2: with the output file for a.md pre-existing,
the walk entry for /in only makes the output directory and skips, and
the filesystem is unchanged. -/
theorem c2_witness :
    processEntryFiles cfgEx "/in" ["a.md"] [("/in/flashcards/a.md", "X")]
      = ([Event.mkdir "/in/flashcards",
          Event.skipExisting "/in/flashcards/a.md"],
         [("/in/flashcards/a.md", "X")]) := by
  have h := c2_skip_existing.1 cfgEx "/in" "a.md" []
    [("/in/flashcards/a.md", "X")] rfl rfl rfl
  rw [h]
  rfl

/-- Claim C9: for every qualifying note, the parent directory of its
output path is made first, before the existence check, so the directory
creation happens even for files then skipped as already existing. -/
theorem c9_mkdir_before_check (cfg : Config) (root file : String)
    (rest : List String) (fs : Fs)
    (hmd : strEndsWith file ".md" = true) :
    (∃ evs, (processEntryFiles cfg root (file :: rest) fs).1
        = Event.mkdir (dirName (outputPathFor cfg root file)) :: evs)
    ∧ ((fsLookup fs (outputPathFor cfg root file)).isSome = true →
        cfg.overwrite_files = false →
        (processEntryFiles cfg root (file :: rest) fs).1
          = Event.mkdir (dirName (outputPathFor cfg root file))
            :: Event.skipExisting (outputPathFor cfg root file)
            :: (processEntryFiles cfg root rest fs).1) := by
  constructor
  · by_cases hex : (fsLookup fs (outputPathFor cfg root file)).isSome
        && !cfg.overwrite_files
    · refine ⟨Event.skipExisting (outputPathFor cfg root file)
        :: (processEntryFiles cfg root rest fs).1, ?_⟩
      simp [processEntryFiles, hmd, hex]
    · refine ⟨Event.process (pathJoin root file) (outputPathFor cfg root file)
        :: (processEntryFiles cfg root rest
            (fsWrite fs (outputPathFor cfg root file)
              (cfg.gen ((fsLookup fs (pathJoin root file)).getD "")))).1, ?_⟩
      simp [processEntryFiles, hmd, hex]
  · intro hex hov
    simp [processEntryFiles, hmd, hex, hov]

/-- Witness for claim C9: the output parent directory event is emitted
for a note whose output already exists and is then skipped. -/
theorem c9_witness :
    ∃ evs, (processEntryFiles cfgEx "/in/sub" ["n.md"]
        [("/in/flashcards/sub/n.md", "O")]).1
      = Event.mkdir "/in/flashcards/sub" :: evs := by
  obtain ⟨evs, he⟩ := (c9_mkdir_before_check cfgEx "/in/sub" "n.md" []
    [("/in/flashcards/sub/n.md", "O")] rfl).1
  refine ⟨evs, ?_⟩
  rw [he]
  rfl

/-- Claim C3, counterexample: a decoded reply whose cards value fails
the shape check of `validate_flashcards` (a record with neither a front
nor a back key) is returned unchanged by `create_flashcard` instead of
producing an error. -/
theorem c3_counterexample :
    validate_flashcards (Json.arr [Json.obj [("foo", Json.str "bar")]])
        = .error .missingFrontBackKey
    ∧ create_flashcard (some (Json.obj
        [("cards", Json.arr [Json.obj [("foo", Json.str "bar")]])]))
        = .ok (Json.arr [Json.obj [("foo", Json.str "bar")]]) :=
  ⟨rfl, rfl⟩

/-- Claim C3, amended: `create_flashcard` applies no shape validation.
Whenever the reply decodes to a JSON object carrying a cards list, the
list is returned as-is, whether or not it satisfies the shape check of
`validate_flashcards`. -/
theorem c3_amended (cards : List Json) :
    create_flashcard (some (Json.obj [("cards", Json.arr cards)]))
      = .ok (Json.arr cards) := rfl

/-- Claim C4: `validate_flashcards` succeeds exactly on values of the
shape the spec demands (a list of records, each with string values under
the front and back keys), and each kind of violation raises the specific
stated constraint: non-list input, a non-record element, a record
missing a key, and a record with a non-string value. -/
theorem c4_validate_iff_shape :
    (∀ j : Json, validate_flashcards j = .ok () ↔ cardsShapeSpec j = true)
    ∧ validate_flashcards (Json.int 3) = .error .mustBeList
    ∧ validate_flashcards (Json.arr [Json.str "x"]) = .error .mustBeDict
    ∧ validate_flashcards (Json.arr [Json.obj [("front", Json.str "q")]])
        = .error .missingFrontBackKey
    ∧ validate_flashcards
        (Json.arr [Json.obj [("front", Json.int 1), ("back", Json.str "a")]])
        = .error .frontBackMustBeStrings := by
  refine ⟨fun j => ?_, rfl, rfl, rfl, rfl⟩
  cases j <;> simp [validate_flashcards, cardsShapeSpec, validateCards_ok_iff]

/-- Claim C5: any format type other than obsidian_spaced_repetition
makes `format_flashcards` fail with the ValueError naming the format
type; no output string is produced. -/
theorem c5_unknown_format_errors (flashcards : List Json)
    (format_type : String) (include_tag : Bool)
    (h : format_type ≠ "obsidian_spaced_repetition") :
    format_flashcards flashcards format_type include_tag
      = .error (.valueError ("Invalid format type: " ++ format_type)) := by
  simp [format_flashcards, h]

/-- Witness for claim C5 at the concrete format type anki. -/
theorem c5_witness :
    format_flashcards [] "anki" true
      = .error (.valueError "Invalid format type: anki") := by
  simpa using c5_unknown_format_errors [] "anki" true (by decide)

/-- Claim C6: in the recognized format type, each record with both a
front and a back key is rendered as the front value, a line holding only
a question mark, the back value and a blank line, appended in input
order; records missing either key contribute nothing; the call never
fails on such records. -/
theorem c6_render_objs (cards : List (List (String × Json)))
    (include_tag : Bool) :
    format_flashcards (cards.map Json.obj) "obsidian_spaced_repetition"
        include_tag
      = .ok ((if include_tag then "#flashcards\n\n" else "")
          ++ strConcat (cards.map objRender)) :=
  format_flashcards_objs cards include_tag

/-- Claim C7: the single France/Paris card with the tag renders to the
exact string of the spec. -/
theorem c7_france_example :
    format_flashcards
        [Json.obj [("front", Json.str "Capital of France?"),
                   ("back", Json.str "Paris")]]
        "obsidian_spaced_repetition" true
      = .ok "#flashcards\n\nCapital of France?\n?\nParis\n\n" := rfl

/-- Claim C8: when every record lacks a front or a back key (in
particular for the empty list), the output is exactly the tag line and a
blank line with the tag, and exactly the empty string without it. -/
theorem c8_all_invalid (cards : List (List (String × Json)))
    (h : ∀ kvs ∈ cards,
      lookupField kvs "front" = none ∨ lookupField kvs "back" = none) :
    format_flashcards (cards.map Json.obj) "obsidian_spaced_repetition" true
        = .ok "#flashcards\n\n"
    ∧ format_flashcards (cards.map Json.obj) "obsidian_spaced_repetition" false
        = .ok "" := by
  have hc := strConcat_objRender_empty cards h
  constructor <;> simp [format_flashcards_objs, hc]

/-- Witness for claim C8: the empty list with no tag gives the empty
string, and a one-card list missing both keys gives just the tag. -/
theorem c8_witness :
    format_flashcards [] "obsidian_spaced_repetition" false = .ok ""
    ∧ format_flashcards [Json.obj [("note", Json.str "x")]]
        "obsidian_spaced_repetition" true = .ok "#flashcards\n\n" := by
  refine ⟨(c8_all_invalid [] (by simp)).2, ?_⟩
  have h := (c8_all_invalid [[("note", Json.str "x")]] ?_).1
  · simpa using h
  · intro kvs hk
    simp only [List.mem_singleton] at hk
    subst hk
    left; rfl

/-- Claim C10: inclusion depends only on key presence: a record with
both keys is rendered even when a value is the empty string or not a
string at all, the values passing through the Python str conversion. -/
theorem c10_presence_only (kvs : List (String × Json)) (f b : Json)
    (hf : lookupField kvs "front" = some f)
    (hb : lookupField kvs "back" = some b) :
    format_flashcards [Json.obj kvs] "obsidian_spaced_repetition" false
      = .ok (pyStr f ++ "\n?\n" ++ pyStr b ++ "\n\n") := by
  have h := format_flashcards_objs [kvs] false
  simp only [List.map_cons, List.map_nil] at h
  rw [h]
  simp [strConcat, objRender, hf, hb]

/-- Witness for claim C10: a numeric front and an empty-string back are
still rendered, the number via its string conversion. -/
theorem c10_witness :
    format_flashcards
        [Json.obj [("front", Json.int 42), ("back", Json.str "")]]
        "obsidian_spaced_repetition" false
      = .ok "42\n?\n\n\n" := by
  simpa using c10_presence_only
    [("front", Json.int 42), ("back", Json.str "")]
    (Json.int 42) (Json.str "") rfl rfl

end FlashcardGen
